import Mathlib

/-!
Verification of the AI-Orchestra workflow execution engine
(`src/orchestrator/main.py` and `src/orchestrator/swarms_integration.py`)
against its natural-language specification.

The engine is shallowly embedded:

* pure data (the Pydantic models `AgentTask`, `TaskStatus`, `WorkflowStatus`)
  become Lean structures;
* the single-task execution wrapper `execute_task` becomes a pure function
  parameterised by the outcome of the abstract Task Executor (spec section 4.5
  and section 6: the engine "depends on an abstract task executor capability";
  the mock body of `execute_task` is that capability's stand-in, and a genuine
  executor may succeed or fail, which we model as `Except String String`);
* `execute_sequential` becomes structural recursion over the task list;
* `execute_parallel` and `execute_graph` spawn concurrently scheduled
  coroutines, which we model as small-step transition systems: one atomic
  step per un-interrupted code slice between `await` points, with the
  scheduler choosing steps nondeterministically (an over-approximation of
  every asyncio interleaving);
* wall-clock timestamps (`datetime.utcnow()`) are elided: they are opaque
  external effects that no claim mentions.
-/

/-! ## Data model -/

/-- Task status enum, `TaskStatus.status` in `main.py`:
`"pending" | "running" | "completed" | "failed"`. -/
inductive TStatus where
  | pending
  | running
  | completed
  | failed
deriving DecidableEq

/-- Workflow status enum, `WorkflowStatus.status` in `main.py`:
`"pending" | "running" | "completed" | "failed" | "partial"`.
The source's `"partial"` literal is named `mixed` here because `partial` is a
Lean keyword. -/
inductive WStatus where
  | pending
  | running
  | completed
  | failed
  | mixed
deriving DecidableEq

/-- A task status is terminal when it is `completed` or `failed`. -/
def TStatus.isTerminal : TStatus → Prop
  | .completed => True
  | .failed => True
  | _ => False

instance : DecidablePred TStatus.isTerminal := by
  intro s
  cases s <;> simp [TStatus.isTerminal] <;> infer_instance

/-- `AgentTask` model of `main.py` (the immutable task definition).
`input_data` is an opaque key-value map in the source; we keep it as an
association list of strings, it is never inspected by the engine. -/
structure AgentTask where
  agent_id : String
  agent_role : String
  input_data : List (String × String)
  depends_on : List String
deriving DecidableEq

/-- `TaskStatus` model of `main.py` (the mutable per-task record).
The `started_at` / `completed_at` wall-clock fields are elided. -/
structure TaskRecord where
  task_id : String
  agent_id : String
  agent_role : String
  status : TStatus
  result : Option String
  error : Option String
deriving DecidableEq

/-- `WorkflowStatus` model of `main.py` (the mutable workflow record).
Timestamps elided, `metadata` kept opaque. -/
structure WorkflowRecord where
  workflow_id : String
  workflow_type : String
  status : WStatus
  tasks : List TaskRecord
  metadata : List (String × String)
deriving DecidableEq

/-- The `context` argument of `execute_task` is `Any` in the source: `None`,
the previous task's result (sequential mode), or the dependency-results dict
(graph mode). -/
inductive Ctx where
  | none
  | prev (r : String)
  | deps (m : List (String × Option String))
deriving DecidableEq

/-! ## Single-task execution wrapper (`execute_task`, main.py lines 314-363) -/

/-- First half of `execute_task`: `task_status.status = "running"`
(line 330; `started_at` elided). -/
def startTask (ts : TaskRecord) : TaskRecord :=
  { ts with status := TStatus.running }

/-- Second half of `execute_task`: on executor success set `completed` and
record the result and return it (lines 353-357); on an executor fault set
`failed`, record the message, and return `None` (lines 359-363). -/
def finishTask (outcome : Except String String) (ts : TaskRecord) :
    TaskRecord × Option String :=
  match outcome with
  | .ok r => ({ ts with status := TStatus.completed, result := some r }, some r)
  | .error e => ({ ts with status := TStatus.failed, error := some e }, none)

/-- `execute_task` as one pure function: `running`, then the terminal
transition, parameterised by the Task Executor's outcome. -/
def execute_task (outcome : Except String String) (ts : TaskRecord) :
    TaskRecord × Option String :=
  finishTask outcome (startTask ts)

/-! ## Workflow aggregation (`execute_workflow`, main.py lines 209-216) -/

/-- Lines 209-216 of `execute_workflow`: `all_completed` / `any_failed` /
`any completed` aggregation, starting from the current workflow status
(`"running"`, set on line 198) which is left unchanged when neither branch
fires. -/
def aggregateStatus (tasks : List TaskRecord) (cur : WStatus) : WStatus :=
  if ∀ t ∈ tasks, t.status = TStatus.completed then WStatus.completed
  else if ∃ t ∈ tasks, t.status = TStatus.failed then
    (if ∃ t ∈ tasks, t.status = TStatus.completed then WStatus.mixed
     else WStatus.failed)
  else cur

/-! ## Orchestration-fault handler (`execute_workflow`, main.py lines 218-224) -/

/-- Per-task body of the `except` handler loop (lines 221-224): a task still
`pending` or `running` is set to `failed` with the fault message as its
error; terminal tasks are untouched. -/
def faultTask (msg : String) (t : TaskRecord) : TaskRecord :=
  if t.status = TStatus.pending ∨ t.status = TStatus.running then
    { t with status := TStatus.failed, error := some msg }
  else t

/-- The whole `except` handler (lines 218-224): the workflow status is set to
`"failed"` unconditionally (line 219), then every non-terminal task is
force-failed. -/
def execute_workflow_fault (msg : String) (w : WorkflowRecord) : WorkflowRecord :=
  { w with status := WStatus.failed, tasks := w.tasks.map (faultTask msg) }

/-! ## Sequential strategy (`execute_sequential`, main.py lines 228-245) -/

/-- The sequential context argument: `previous_result` is `None` or the
previous task's returned result. -/
def ctxOfPrev : Option String → Ctx
  | Option.none => Ctx.none
  | some r => Ctx.prev r

/-- `execute_sequential`, recursing over the zipped (definition, record)
list. `exec k ctx` is the Task Executor outcome for the task at position
`k` given context `ctx`. After each task, `previous_result` becomes that
task's returned result (which is `None` when it failed); if the task ended
`failed` and its role is not `"qa"`, the loop breaks and the remaining
records are returned untouched (lines 244-245). -/
def execute_sequential (exec : Nat → Ctx → Except String String) :
    Nat → Option String → List (AgentTask × TaskRecord) → List TaskRecord
  | _, _, [] => []
  | k, prev, (td, ts) :: rest =>
    let out := execute_task (exec k (ctxOfPrev prev)) ts
    if out.1.status = TStatus.failed ∧ td.agent_role ≠ "qa" then
      out.1 :: rest.map Prod.snd
    else
      out.1 :: execute_sequential exec (k + 1) out.2 rest

/-- `execute_workflow` for a sequential workflow: status is set `running`
(line 198), the strategy runs, and lines 209-216 aggregate from `running`. -/
def execute_workflow_seq (exec : Nat → Ctx → Except String String)
    (defs : List AgentTask) (w : WorkflowRecord) : WorkflowRecord :=
  let recs := execute_sequential exec 0 Option.none (defs.zip w.tasks)
  { w with tasks := recs, status := aggregateStatus recs WStatus.running }

/-! ## Submission (`run_graph`, main.py lines 108-152) -/

/-- Initial task records built at submission (lines 130-138):
`task_id = f"{workflow_id}-task-{i}"`, status `pending`. -/
def initRecords (workflow_id : String) (tasks : List AgentTask) : List TaskRecord :=
  tasks.mapIdx fun i t =>
    { task_id := workflow_id ++ "-task-" ++ toString i,
      agent_id := t.agent_id,
      agent_role := t.agent_role,
      status := TStatus.pending,
      result := Option.none,
      error := Option.none }

/-- `run_graph` (lines 121-143): choose the workflow id
(`workflow_request.workflow_id or str(uuid.uuid4())` — Python `or` falls back
to the generated id when the supplied id is `None` *or* the empty string),
build a fresh `pending` record, and store it under that id, overwriting any
record already stored there (plain dict assignment, line 143). Returns the
fresh record and the updated store. -/
def run_graph (store : String → Option WorkflowRecord)
    (supplied_id : Option String) (generated_id : String)
    (workflow_type : String) (tasks : List AgentTask)
    (metadata : List (String × String)) :
    WorkflowRecord × (String → Option WorkflowRecord) :=
  let workflow_id :=
    match supplied_id with
    | some s => if s = "" then generated_id else s
    | Option.none => generated_id
  let ws : WorkflowRecord :=
    { workflow_id := workflow_id,
      workflow_type := workflow_type,
      status := WStatus.pending,
      tasks := initRecords workflow_id tasks,
      metadata := metadata }
  (ws, Function.update store workflow_id (some ws))

/-! ## Graph strategy (`execute_graph`, main.py lines 261-312)

`execute_graph` launches one coroutine per task (`execute_with_deps`).
Between `await` points a coroutine runs without interruption, so the
strategy is a transition system with two atomic steps per task:

* `start`: the coroutine's `asyncio.gather` over its dependencies' events
  has returned (every `dep_id` event is set, lines 282-287, vacuous for an
  empty `depends_on`), it builds `dep_results` from the current
  `completed_tasks` dict (lines 290-293) and enters `execute_task`, which
  sets the record `running` (line 330) and then suspends on the simulated
  work (line 338);
* `finish`: the executor outcome arrives; `execute_task` drives the record
  to its terminal state (lines 353-363) and returns, then the coroutine
  stores the returned result in `completed_tasks` (line 299, also storing
  `None` for a failed task) and sets its own event (line 302), all without
  an intervening `await`;
* `crash`: when some declared dependency id is no key of `task_events`
  (which is keyed by the workflow's own agent ids, lines 276-277), the
  coroutine's first slice raises `KeyError` while building the
  comprehension on line 285 — before any wait — terminating the coroutine;
  the exception is captured by `asyncio.gather(..., return_exceptions=True)`
  (line 312), so nothing else in the state changes.

Steps of distinct coroutines interleave nondeterministically, an
over-approximation of every asyncio schedule. -/

/-- Where a task's coroutine currently is: not yet past its dependency
wait; inside `execute_task` with the captured `dep_results` context;
returned; or terminated by the `KeyError` a dangling dependency id raises
at line 285 (swallowed by the outer `gather(..., return_exceptions=True)`
on line 312). -/
inductive Phase where
  | waiting
  | active (ctx : Ctx)
  | done
  | crashed
deriving DecidableEq

/-- State of one `execute_graph` run over `n` tasks: the task records of the
workflow, the `completed_tasks` dict (association list, most recent first,
mirroring dict assignment), the set of agent ids whose `asyncio.Event` has
been set, and each coroutine's phase. -/
structure GState (n : Nat) where
  records : Fin n → TaskRecord
  completed_tasks : List (String × Option String)
  events : List String
  phase : Fin n → Phase

/-- Read of the `completed_tasks` dict at a key: first (most recent) entry
wins, mirroring Python dict assignment/lookup. `none` means the key is
absent (a `KeyError` in Python — unreachable when the key's event has been
set, see `GInv.ct_done`). -/
def ctFind (ct : List (String × Option String)) (d : String) : Option (Option String) :=
  match ct with
  | [] => Option.none
  | (k, v) :: rest => if k = d then some v else ctFind rest d

/-- `dep_results` (lines 290-293): `None` when `depends_on` is empty, else
the map `{dep_id: completed_tasks[dep_id]}` over the declared dependencies.
A failed dependency's stored value is `None`, so its entry is
`(dep_id, none)` — present, not absent. -/
def mkCtx (deps : List String) (ct : List (String × Option String)) : Ctx :=
  if deps.isEmpty then Ctx.none
  else Ctx.deps (deps.map fun d => (d, (ctFind ct d).getD Option.none))

/-- The `start` step's state update for task `i`. -/
def gStart (defs : Fin n → AgentTask) (s : GState n) (i : Fin n) : GState n :=
  { records := Function.update s.records i (startTask (s.records i)),
    completed_tasks := s.completed_tasks,
    events := s.events,
    phase := Function.update s.phase i
      (Phase.active (mkCtx (defs i).depends_on s.completed_tasks)) }

/-- The `finish` step's state update for task `i` with captured context
`ctx`: terminal record, `completed_tasks[agent_id] = result` (line 299,
unconditional — `None` for a failed task), `task_events[agent_id].set()`
(line 302). -/
def gFinish (exec : Fin n → Ctx → Except String String)
    (defs : Fin n → AgentTask) (s : GState n) (i : Fin n) (ctx : Ctx) : GState n :=
  let out := finishTask (exec i ctx) (s.records i)
  { records := Function.update s.records i out.1,
    completed_tasks := ((defs i).agent_id, out.2) :: s.completed_tasks,
    events := (defs i).agent_id :: s.events,
    phase := Function.update s.phase i Phase.done }

/-- The `crash` step's state update for task `i`: its coroutine's first
slice evaluates `task_events[dep_id]` for each declared dependency while
building the comprehension (line 285); an id that is no key of
`task_events` raises `KeyError`, terminating the coroutine before it
waits, executes, stores a result or fires its event. The exception is
captured by the line-312 `gather(..., return_exceptions=True)`, so the
record, `completed_tasks` and the events are all left untouched. -/
def gCrash (s : GState n) (i : Fin n) : GState n :=
  { records := s.records,
    completed_tasks := s.completed_tasks,
    events := s.events,
    phase := Function.update s.phase i Phase.crashed }

/-- One scheduler step of `execute_graph`. `task_events` is keyed by the
agent ids of the workflow's tasks (lines 276-277), so a dependency id `d`
is a missing key exactly when no task's agent id equals `d` — the `crash`
premise. -/
inductive GStep (exec : Fin n → Ctx → Except String String)
    (defs : Fin n → AgentTask) : GState n → GState n → Prop where
  | start (s : GState n) (i : Fin n)
      (hph : s.phase i = Phase.waiting)
      (hdeps : ∀ d ∈ (defs i).depends_on, d ∈ s.events) :
      GStep exec defs s (gStart defs s i)
  | finish (s : GState n) (i : Fin n) (ctx : Ctx)
      (hph : s.phase i = Phase.active ctx) :
      GStep exec defs s (gFinish exec defs s i ctx)
  | crash (s : GState n) (i : Fin n) (d : String)
      (hph : s.phase i = Phase.waiting)
      (hd : d ∈ (defs i).depends_on)
      (hghost : ∀ j, (defs j).agent_id ≠ d) :
      GStep exec defs s (gCrash s i)

/-- Initial state of `execute_graph`: fresh records, empty
`completed_tasks`, no event set (lines 266-277), every coroutine before its
dependency wait. -/
def initG (recs : Fin n → TaskRecord) : GState n :=
  { records := recs, completed_tasks := [], events := [], phase := fun _ => Phase.waiting }

/-- States reachable by some asyncio schedule. -/
def GReach (exec : Fin n → Ctx → Except String String)
    (defs : Fin n → AgentTask) (recs : Fin n → TaskRecord) : GState n → Prop :=
  Relation.ReflTransGen (GStep exec defs) (initG recs)

/-- The records handed to a strategy are fresh `pending` records built by
`run_graph` (see `initRecords`): status `pending`, no result yet. -/
def initOK (recs : Fin n → TaskRecord) : Prop :=
  ∀ i, (recs i).status = TStatus.pending ∧ (recs i).result = Option.none

/-- The `asyncio.gather(..., return_exceptions=True)` join of
`execute_graph` (line 312) completes exactly when every coroutine has
terminated — by returning (`done`) or by the swallowed dangling-dependency
`KeyError` (`crashed`). -/
def allDone (s : GState n) : Prop :=
  ∀ i, s.phase i = Phase.done ∨ s.phase i = Phase.crashed

/-! ## Parallel strategy (`execute_parallel`, main.py lines 247-259)

Every task's `execute_task` is launched concurrently with `None` context;
the same two atomic slices per task apply (set `running`, then reach the
terminal state), with no dependency wait and no shared dict. -/

/-- State of one `execute_parallel` run. -/
structure PState (n : Nat) where
  records : Fin n → TaskRecord
  phase : Fin n → Phase

/-- `start` update for parallel task `i`: context is always `None`. -/
def pStart (s : PState n) (i : Fin n) : PState n :=
  { records := Function.update s.records i (startTask (s.records i)),
    phase := Function.update s.phase i (Phase.active Ctx.none) }

/-- `finish` update for parallel task `i`. -/
def pFinish (exec : Fin n → Ctx → Except String String)
    (s : PState n) (i : Fin n) : PState n :=
  { records := Function.update s.records i
      (finishTask (exec i Ctx.none) (s.records i)).1,
    phase := Function.update s.phase i Phase.done }

/-- One scheduler step of `execute_parallel`. -/
inductive PStep (exec : Fin n → Ctx → Except String String) :
    PState n → PState n → Prop where
  | start (s : PState n) (i : Fin n) (hph : s.phase i = Phase.waiting) :
      PStep exec s (pStart s i)
  | finish (s : PState n) (i : Fin n) (ctx : Ctx)
      (hph : s.phase i = Phase.active ctx) :
      PStep exec s (pFinish exec s i)

/-- Initial state of `execute_parallel`. -/
def initP (recs : Fin n → TaskRecord) : PState n :=
  { records := recs, phase := fun _ => Phase.waiting }

/-- States reachable by some asyncio schedule of `execute_parallel`. -/
def PReach (exec : Fin n → Ctx → Except String String)
    (recs : Fin n → TaskRecord) : PState n → Prop :=
  Relation.ReflTransGen (PStep exec) (initP recs)

/-! ## The Swarms graph executor's dependency wait
(`swarms_integration.py`, `execute_with_deps` lines 198-203)

```
if task.get("depends_on"):
    while not all(dep_id in results for dep_id in task["depends_on"]):
        await asyncio.sleep(0.1)
```

The loop body observes the shared `results` dict once per iteration and
sleeps when the dependencies are not all present. We model the sequence of
`results` snapshots the loop observes at successive checks and count the
sleeps executed before the wait returns. -/

/-- The loop guard `all(dep_id in results for dep_id in task["depends_on"])`
over one `results` snapshot. -/
def depsMet (results : List (String × String)) (deps : List String) : Bool :=
  deps.all fun d => (ctFind (results.map fun p => (p.1, some p.2)) d).isSome

/-- Number of `asyncio.sleep(0.1)` calls the wait loop performs, given the
successive `results` snapshots it observes: it re-checks after every sleep
until a snapshot satisfies the guard. -/
def pollSleeps (snapshots : List (List (String × String))) (deps : List String) : Nat :=
  match snapshots with
  | [] => 0
  | r :: rest => if depsMet r deps then 0 else pollSleeps rest deps + 1

/-! ## Run-time invariants of `execute_graph` -/

/-- Invariant tying coroutine phases, record statuses, and fired events:
a coroutine before its wait has an untouched `pending` record; one inside
`execute_task` has a `running` record with no result yet; a returned one
has a terminal record; every fired event belongs to a returned coroutine;
and a `failed` record carries no result (`finishTask` leaves `result`
untouched on the fault branch). -/
structure GInv (defs : Fin n → AgentTask) (s : GState n) : Prop where
  ph_waiting : ∀ i, s.phase i = Phase.waiting →
    (s.records i).status = TStatus.pending ∧ (s.records i).result = Option.none
  ph_active : ∀ i ctx, s.phase i = Phase.active ctx →
    (s.records i).status = TStatus.running ∧ (s.records i).result = Option.none
  ph_done : ∀ i, s.phase i = Phase.done →
    (s.records i).status = TStatus.completed ∨ (s.records i).status = TStatus.failed
  ev_done : ∀ d ∈ s.events, ∃ i, s.phase i = Phase.done ∧ (defs i).agent_id = d
  failed_res : ∀ i, (s.records i).status = TStatus.failed →
    (s.records i).result = Option.none

theorem ginv_init (defs : Fin n → AgentTask) (recs : Fin n → TaskRecord)
    (hinit : initOK recs) : GInv defs (initG recs) := by
  constructor
  · intro i _
    exact hinit i
  · intro i ctx h
    simp [initG] at h
  · intro i h
    simp [initG] at h
  · intro d hd
    simp [initG] at hd
  · intro i h
    have hp := (hinit i).1
    simp only [initG] at h
    rw [h] at hp
    cases hp

theorem ginv_step (exec : Fin n → Ctx → Except String String)
    (defs : Fin n → AgentTask) (s s' : GState n)
    (hinv : GInv defs s) (hstep : GStep exec defs s s') : GInv defs s' := by
  cases hstep with
  | start i hph hdeps =>
    constructor
    · intro j hj
      by_cases h : j = i
      · subst h
        simp [gStart, Function.update_same] at hj
      · simp [gStart, Function.update_noteq h] at hj ⊢
        exact hinv.ph_waiting j hj
    · intro j ctx hj
      by_cases h : j = i
      · subst h
        simp [gStart, Function.update_same, startTask]
        exact (hinv.ph_waiting j hph).2
      · simp [gStart, Function.update_noteq h] at hj ⊢
        exact hinv.ph_active j ctx hj
    · intro j hj
      by_cases h : j = i
      · subst h
        simp [gStart, Function.update_same] at hj
      · simp [gStart, Function.update_noteq h] at hj ⊢
        exact hinv.ph_done j hj
    · intro d hd
      simp only [gStart] at hd
      obtain ⟨k, hk, ha⟩ := hinv.ev_done d hd
      have hki : k ≠ i := by
        intro h
        rw [h, hph] at hk
        cases hk
      exact ⟨k, by simp [gStart, Function.update_noteq hki, hk], ha⟩
    · intro j hj
      by_cases h : j = i
      · subst h
        simp [gStart, Function.update_same, startTask] at hj
      · simp [gStart, Function.update_noteq h] at hj ⊢
        exact hinv.failed_res j hj
  | finish i ctx hph =>
    constructor
    · intro j hj
      by_cases h : j = i
      · subst h
        simp [gFinish, Function.update_same] at hj
      · simp [gFinish, Function.update_noteq h] at hj ⊢
        exact hinv.ph_waiting j hj
    · intro j c hj
      by_cases h : j = i
      · subst h
        simp [gFinish, Function.update_same] at hj
      · simp [gFinish, Function.update_noteq h] at hj ⊢
        exact hinv.ph_active j c hj
    · intro j hj
      by_cases h : j = i
      · subst h
        simp [gFinish, Function.update_same]
        cases hout : exec j ctx <;> simp [finishTask, hout]
      · simp [gFinish, Function.update_noteq h] at hj ⊢
        exact hinv.ph_done j hj
    · intro d hd
      simp only [gFinish, List.mem_cons] at hd
      rcases hd with hd | hd
      · exact ⟨i, by simp [gFinish, Function.update_same], hd.symm⟩
      · obtain ⟨k, hk, ha⟩ := hinv.ev_done d hd
        have hki : k ≠ i := by
          intro h
          rw [h, hph] at hk
          cases hk
        exact ⟨k, by simp [gFinish, Function.update_noteq hki, hk], ha⟩
    · intro j hj
      by_cases h : j = i
      · subst h
        simp only [gFinish, Function.update_same] at hj ⊢
        cases hout : exec j ctx <;> simp [finishTask, hout] at hj ⊢
        exact (hinv.ph_active j ctx hph).2
      · simp [gFinish, Function.update_noteq h] at hj ⊢
        exact hinv.failed_res j hj
  | crash i d hph hd hghost =>
    constructor
    · intro j hj
      by_cases h : j = i
      · subst h
        simp [gCrash, Function.update_same] at hj
      · simp only [gCrash, Function.update_noteq h] at hj
        exact hinv.ph_waiting j hj
    · intro j c hj
      by_cases h : j = i
      · subst h
        simp [gCrash, Function.update_same] at hj
      · simp only [gCrash, Function.update_noteq h] at hj
        exact hinv.ph_active j c hj
    · intro j hj
      by_cases h : j = i
      · subst h
        simp [gCrash, Function.update_same] at hj
      · simp only [gCrash, Function.update_noteq h] at hj
        exact hinv.ph_done j hj
    · intro dd hdd
      obtain ⟨k, hk, ha⟩ := hinv.ev_done dd hdd
      have hki : k ≠ i := by
        intro heq
        rw [heq, hph] at hk
        cases hk
      exact ⟨k, by simp [gCrash, Function.update_noteq hki, hk], ha⟩
    · intro j hj
      exact hinv.failed_res j hj

theorem ginv_reach (exec : Fin n → Ctx → Except String String)
    (defs : Fin n → AgentTask) (recs : Fin n → TaskRecord) (s : GState n)
    (hinit : initOK recs) (hreach : GReach exec defs recs s) : GInv defs s := by
  induction hreach with
  | refl => exact ginv_init defs recs hinit
  | tail _ hstep ih => exact ginv_step _ _ _ _ ih hstep

/-- Distinct tasks of one workflow carry distinct agent ids (the premise
under which `task_map`, `task_events` and `completed_tasks` — all keyed by
`agent_id` — are faithful, and under which "the task named by a dependency
id" is well defined). -/
def agentInj (defs : Fin n → AgentTask) : Prop :=
  ∀ i j, (defs i).agent_id = (defs j).agent_id → i = j

instance (defs : Fin n → AgentTask) : Decidable (agentInj defs) := by
  unfold agentInj
  infer_instance

/-- Each completion event fires at most once: `events` never holds a
duplicate agent id. -/
theorem events_nodup (exec : Fin n → Ctx → Except String String)
    (defs : Fin n → AgentTask) (recs : Fin n → TaskRecord) (s : GState n)
    (hinj : agentInj defs) (hinit : initOK recs)
    (hreach : GReach exec defs recs s) : s.events.Nodup := by
  induction hreach with
  | refl => simp [initG]
  | @tail b c hb hstep ih =>
    have hinv := ginv_reach exec defs recs b hinit hb
    cases hstep with
    | start i hph hdeps => exact ih
    | crash i d hph hd hghost => exact ih
    | finish i ctx hph =>
      simp only [gFinish, List.nodup_cons]
      refine ⟨?_, ih⟩
      intro hmem
      obtain ⟨k, hk, ha⟩ := hinv.ev_done _ hmem
      have : k = i := hinj k i ha
      rw [this, hph] at hk
      cases hk

/-- After a task's coroutine has returned, `completed_tasks` holds exactly
that task's recorded result under its agent id (the stored value is the
return of `execute_task`: the result on success, `None` on failure). -/
theorem ct_done (exec : Fin n → Ctx → Except String String)
    (defs : Fin n → AgentTask) (recs : Fin n → TaskRecord) (s : GState n)
    (hinj : agentInj defs) (hinit : initOK recs)
    (hreach : GReach exec defs recs s) :
    ∀ i, s.phase i = Phase.done →
      ctFind s.completed_tasks (defs i).agent_id = some ((s.records i).result) := by
  induction hreach with
  | refl =>
    intro i h
    simp [initG] at h
  | @tail b c hb hstep ih =>
    have hinv := ginv_reach exec defs recs b hinit hb
    cases hstep with
    | start i hph hdeps =>
      intro j hj
      by_cases h : j = i
      · subst h
        simp [gStart, Function.update_same] at hj
      · simp [gStart, Function.update_noteq h] at hj ⊢
        exact ih j hj
    | finish i ctx hph =>
      intro j hj
      by_cases h : j = i
      · subst h
        simp only [gFinish, Function.update_same, ctFind, if_pos rfl]
        cases hout : exec j ctx <;>
          simp [finishTask, hout, (hinv.ph_active j ctx hph).2]
      · have hne : (defs i).agent_id ≠ (defs j).agent_id := by
          intro heq
          exact h (hinj j i heq.symm)
        simp only [gFinish, Function.update_noteq h, ctFind] at hj ⊢
        rw [if_neg hne]
        exact ih j hj
    | crash i d hph hd hghost =>
      intro j hj
      by_cases h : j = i
      · subst h
        simp [gCrash, Function.update_same] at hj
      · simp only [gCrash, Function.update_noteq h] at hj
        exact ih j hj

/-- Phase/record invariant for `execute_parallel`. -/
structure PInv (s : PState n) : Prop where
  ph_waiting : ∀ i, s.phase i = Phase.waiting → (s.records i).status = TStatus.pending
  ph_active : ∀ i ctx, s.phase i = Phase.active ctx →
    (s.records i).status = TStatus.running
  ph_done : ∀ i, s.phase i = Phase.done →
    (s.records i).status = TStatus.completed ∨ (s.records i).status = TStatus.failed

theorem pinv_reach (exec : Fin n → Ctx → Except String String)
    (recs : Fin n → TaskRecord) (s : PState n)
    (hinit : initOK recs) (hreach : PReach exec recs s) : PInv s := by
  induction hreach with
  | refl =>
    refine ⟨fun i _ => (hinit i).1, fun i ctx h => ?_, fun i h => ?_⟩ <;>
      simp [initP] at h
  | @tail b c hb hstep ih =>
    cases hstep with
    | start i hph =>
      refine ⟨fun j hj => ?_, fun j ctx hj => ?_, fun j hj => ?_⟩
      · by_cases h : j = i
        · subst h
          simp [pStart, Function.update_same] at hj
        · simp [pStart, Function.update_noteq h] at hj ⊢
          exact ih.ph_waiting j hj
      · by_cases h : j = i
        · subst h
          simp [pStart, Function.update_same, startTask]
        · simp [pStart, Function.update_noteq h] at hj ⊢
          exact ih.ph_active j ctx hj
      · by_cases h : j = i
        · subst h
          simp [pStart, Function.update_same] at hj
        · simp [pStart, Function.update_noteq h] at hj ⊢
          exact ih.ph_done j hj
    | finish i ctx hph =>
      refine ⟨fun j hj => ?_, fun j c hj => ?_, fun j hj => ?_⟩
      · by_cases h : j = i
        · subst h
          simp [pFinish, Function.update_same] at hj
        · simp [pFinish, Function.update_noteq h] at hj ⊢
          exact ih.ph_waiting j hj
      · by_cases h : j = i
        · subst h
          simp [pFinish, Function.update_same] at hj
        · simp [pFinish, Function.update_noteq h] at hj ⊢
          exact ih.ph_active j c hj
      · by_cases h : j = i
        · subst h
          simp only [pFinish, Function.update_same]
          cases hout : exec j Ctx.none <;> simp [finishTask, hout]
        · simp [pFinish, Function.update_noteq h] at hj ⊢
          exact ih.ph_done j hj

/-! ## Status transition discipline -/

/-- The transitions the per-task state machine admits: stay put, or
`pending → running`, or `running → completed/failed`. -/
def allowedTrans (a b : TStatus) : Prop :=
  a = b ∨ (a = TStatus.pending ∧ b = TStatus.running) ∨
    (a = TStatus.running ∧ (b = TStatus.completed ∨ b = TStatus.failed))

instance (a b : TStatus) : Decidable (allowedTrans a b) := by
  unfold allowedTrans
  infer_instance

/-! ## Claim C1: workflow aggregation -/

/-- C1 (corrected): the final status computed by lines 209-216 of
`execute_workflow` (from the `running` status set on line 198) is
characterised unconditionally: `completed` iff every task is completed —
so the EMPTY workflow ends `completed`, not `failed`, despite having zero
completed tasks; `failed` iff at least one task failed AND no task
completed; `partial` (`mixed`) iff at least one task completed and at
least one failed; and when no task failed but not every task completed —
reachable without an unhandled fault, e.g. a task left `pending` by the
swallowed dangling-dependency `KeyError` of graph mode — the workflow
status is silently left at `running`, not set to any terminal value. The
claim's "Failed iff zero tasks Completed" fails on both of the last two
points (see `aggregate_zero_completed_counterexample`). -/
theorem aggregate_characterization (tasks : List TaskRecord) :
    (aggregateStatus tasks WStatus.running = WStatus.completed ↔
      ∀ t ∈ tasks, t.status = TStatus.completed) ∧
    (aggregateStatus tasks WStatus.running = WStatus.failed ↔
      ((∃ t ∈ tasks, t.status = TStatus.failed) ∧
       ∀ t ∈ tasks, t.status ≠ TStatus.completed)) ∧
    (aggregateStatus tasks WStatus.running = WStatus.mixed ↔
      ((∃ t ∈ tasks, t.status = TStatus.completed) ∧
       ∃ t ∈ tasks, t.status = TStatus.failed)) ∧
    (((¬ ∃ t ∈ tasks, t.status = TStatus.failed) ∧
      ¬ ∀ t ∈ tasks, t.status = TStatus.completed) →
      aggregateStatus tasks WStatus.running = WStatus.running) := by
  unfold aggregateStatus
  split_ifs with h1 h2 h3
  · refine ⟨⟨fun _ => h1, fun _ => rfl⟩, ⟨fun h => absurd h (by decide), ?_⟩,
      ⟨fun h => absurd h (by decide), ?_⟩, ?_⟩
    · rintro ⟨⟨t, ht, hf⟩, hnc⟩
      exact absurd (h1 t ht) (hnc t ht)
    · rintro ⟨-, t, ht, hf⟩
      have hc := h1 t ht
      rw [hf] at hc
      cases hc
    · rintro ⟨-, hna⟩
      exact absurd h1 hna
  · refine ⟨⟨fun h => absurd h (by decide), fun hall => absurd hall h1⟩,
      ⟨fun h => absurd h (by decide), ?_⟩,
      ⟨fun _ => ⟨h3, h2⟩, fun _ => rfl⟩, ?_⟩
    · rintro ⟨-, hnc⟩
      obtain ⟨t, ht, hc⟩ := h3
      exact absurd hc (hnc t ht)
    · rintro ⟨hnf, -⟩
      exact absurd h2 hnf
  · refine ⟨⟨fun h => absurd h (by decide), fun hall => absurd hall h1⟩,
      ⟨fun _ => ⟨h2, fun t ht hc => h3 ⟨t, ht, hc⟩⟩, fun _ => rfl⟩,
      ⟨fun h => absurd h (by decide), ?_⟩, ?_⟩
    · rintro ⟨hc, -⟩
      exact absurd hc h3
    · rintro ⟨hnf, -⟩
      exact absurd h2 hnf
  · refine ⟨⟨fun h => absurd h (by decide), fun hall => absurd hall h1⟩,
      ⟨fun h => absurd h (by decide), ?_⟩,
      ⟨fun h => absurd h (by decide), ?_⟩, fun _ => rfl⟩
    · rintro ⟨hf, -⟩
      exact absurd hf h2
    · rintro ⟨-, hf⟩
      exact absurd hf h2

/-- Executor for the C1 dangling-dependency run. -/
def c1gexec : Fin 1 → Ctx → Except String String := fun _ _ => Except.ok "ok"

/-- Definition for the C1 dangling-dependency run: one task depending on
the nonexistent `"ghost"`. -/
def c1gdefs : Fin 1 → AgentTask := fun _ =>
  { agent_id := "B", agent_role := "backend", input_data := [], depends_on := ["ghost"] }

/-- Fresh record for the C1 dangling-dependency run. -/
def c1grecs : Fin 1 → TaskRecord := fun _ =>
  { task_id := "w-task-0", agent_id := "B", agent_role := "backend",
    status := TStatus.pending, result := Option.none, error := Option.none }

/-- Final state of the C1 dangling-dependency run: the coroutine crashed,
the join is complete, the record is still `pending`. -/
def c1gs1 : GState 1 := gCrash (initG c1grecs) 0

/-- C1 counterexample: two runs refute "Failed if and only if zero tasks
are Completed" as stated. (i) The empty workflow: zero tasks are
completed, yet lines 209-216 aggregate it to `completed` (`all()` over an
empty list is true). (ii) A complete, reachable graph run whose only task
depends on the nonexistent `"ghost"`: the strategy returns (the crashed
coroutine is swallowed by the line-312 join) with the task still
`pending` — zero tasks completed, none failed — and the aggregation
leaves the workflow status at `running`, again not `failed`. -/
theorem aggregate_zero_completed_counterexample :
    (aggregateStatus [] WStatus.running = WStatus.completed ∧
      aggregateStatus [] WStatus.running ≠ WStatus.failed) ∧
    (GReach c1gexec c1gdefs c1grecs c1gs1 ∧
      allDone c1gs1 ∧
      (∀ t ∈ List.ofFn c1gs1.records, t.status ≠ TStatus.completed) ∧
      aggregateStatus (List.ofFn c1gs1.records) WStatus.running = WStatus.running ∧
      aggregateStatus (List.ofFn c1gs1.records) WStatus.running ≠ WStatus.failed) := by
  refine ⟨by decide, ?_, ?_, by decide, by decide, by decide⟩
  · exact Relation.ReflTransGen.tail Relation.ReflTransGen.refl
      (GStep.crash _ 0 "ghost" rfl (by decide) (by decide))
  · intro i
    have h0 : i = 0 := Subsingleton.elim i 0
    rw [h0]
    exact Or.inr (by decide)

/-- Concrete completed task for the C1 witness. -/
def c1TaskA : TaskRecord :=
  { task_id := "w-task-0", agent_id := "A", agent_role := "backend",
    status := TStatus.completed, result := some "r", error := Option.none }

/-- Concrete failed task for the C1 witness. -/
def c1TaskB : TaskRecord :=
  { task_id := "w-task-1", agent_id := "B", agent_role := "backend",
    status := TStatus.failed, result := Option.none, error := some "boom" }

/-- Concrete pending task for the C1 witness. -/
def c1Pending : TaskRecord :=
  { task_id := "w-task-2", agent_id := "C", agent_role := "backend",
    status := TStatus.pending, result := Option.none, error := Option.none }

/-- Witness for `aggregate_characterization`: the `partial` case at one
completed plus one failed task, and the left-at-`running` case at one
pending task with no failure. -/
theorem aggregate_characterization_witness :
    aggregateStatus [c1TaskA, c1TaskB] WStatus.running = WStatus.mixed ∧
    aggregateStatus [c1Pending] WStatus.running = WStatus.running :=
  ⟨(aggregate_characterization [c1TaskA, c1TaskB]).2.2.1.mpr
      ⟨⟨c1TaskA, by decide, rfl⟩, ⟨c1TaskB, by decide, rfl⟩⟩,
   (aggregate_characterization [c1Pending]).2.2.2 ⟨by decide, by decide⟩⟩

/-! ## Claim C2: orchestration fault handling -/

/-- C2 (corrected): when an exception escapes a strategy, the `except`
handler (lines 218-224) transitions every task still `pending` or `running`
to `failed` with the fault's message as its error and leaves terminal tasks
untouched — but the workflow status is set to `failed` UNCONDITIONALLY
(line 219, before the loop, with no recomputation), so the workflow is
never `partial` after a fault, even when some tasks had already completed
(see `fault_no_recompute_counterexample`). -/
theorem fault_handler_behaviour (msg : String) (w : WorkflowRecord) :
    (execute_workflow_fault msg w).status = WStatus.failed ∧
    (execute_workflow_fault msg w).tasks = w.tasks.map (faultTask msg) ∧
    (∀ t : TaskRecord, (t.status = TStatus.pending ∨ t.status = TStatus.running) →
      (faultTask msg t).status = TStatus.failed ∧ (faultTask msg t).error = some msg) ∧
    (∀ t : TaskRecord, (t.status = TStatus.completed ∨ t.status = TStatus.failed) →
      faultTask msg t = t) := by
  refine ⟨rfl, rfl, ?_, ?_⟩
  · intro t ht
    rw [faultTask, if_pos ht]
    exact ⟨rfl, rfl⟩
  · intro t ht
    rcases ht with h | h <;> simp [faultTask, h]

/-- C2 counterexample: a workflow with one `completed` and one `pending`
task hit by a fault. The claim says the aggregation rule is recomputed, so
the workflow should be `partial`; the code sets it to `failed`
unconditionally while the completed task is still recorded `completed`. -/
theorem fault_no_recompute_counterexample :
    (execute_workflow_fault "boom"
      { workflow_id := "w", workflow_type := "graph", status := WStatus.running,
        tasks := [{ task_id := "w-task-0", agent_id := "A", agent_role := "backend",
                    status := TStatus.completed, result := some "r", error := Option.none },
                  { task_id := "w-task-1", agent_id := "B", agent_role := "backend",
                    status := TStatus.pending, result := Option.none, error := Option.none }],
        metadata := [] }).status = WStatus.failed ∧
    (execute_workflow_fault "boom"
      { workflow_id := "w", workflow_type := "graph", status := WStatus.running,
        tasks := [{ task_id := "w-task-0", agent_id := "A", agent_role := "backend",
                    status := TStatus.completed, result := some "r", error := Option.none },
                  { task_id := "w-task-1", agent_id := "B", agent_role := "backend",
                    status := TStatus.pending, result := Option.none, error := Option.none }],
        metadata := [] }).status ≠ WStatus.mixed ∧
    (∃ t ∈ (execute_workflow_fault "boom"
      { workflow_id := "w", workflow_type := "graph", status := WStatus.running,
        tasks := [{ task_id := "w-task-0", agent_id := "A", agent_role := "backend",
                    status := TStatus.completed, result := some "r", error := Option.none },
                  { task_id := "w-task-1", agent_id := "B", agent_role := "backend",
                    status := TStatus.pending, result := Option.none, error := Option.none }],
        metadata := [] }).tasks, t.status = TStatus.completed) := by
  decide

/-- Concrete workflow for the C2 witness. -/
def c2W : WorkflowRecord :=
  { workflow_id := "w", workflow_type := "graph", status := WStatus.running,
    tasks := [{ task_id := "w-task-0", agent_id := "A", agent_role := "backend",
                status := TStatus.completed, result := some "r", error := Option.none },
              { task_id := "w-task-1", agent_id := "B", agent_role := "backend",
                status := TStatus.pending, result := Option.none, error := Option.none }],
    metadata := [] }

/-- Concrete pending task for the C2 witness. -/
def c2Pending : TaskRecord :=
  { task_id := "w-task-1", agent_id := "B", agent_role := "backend",
    status := TStatus.pending, result := Option.none, error := Option.none }

/-- Concrete completed task for the C2 witness. -/
def c2Completed : TaskRecord :=
  { task_id := "w-task-0", agent_id := "A", agent_role := "backend",
    status := TStatus.completed, result := some "r", error := Option.none }

/-- Witness for `fault_handler_behaviour` at a concrete fault. -/
theorem fault_handler_behaviour_witness :
    (execute_workflow_fault "boom" c2W).status = WStatus.failed ∧
    ((faultTask "boom" c2Pending).status = TStatus.failed ∧
      (faultTask "boom" c2Pending).error = some "boom") ∧
    faultTask "boom" c2Completed = c2Completed :=
  ⟨(fault_handler_behaviour "boom" c2W).1,
   (fault_handler_behaviour "boom" c2W).2.2.1 c2Pending (Or.inl rfl),
   (fault_handler_behaviour "boom" c2W).2.2.2 c2Completed (Or.inl rfl)⟩

/-! ## Claim C10: resubmission under an existing workflow id -/

/-- C10 (confirmed): submitting with a caller-supplied workflow id that is
already a key of the store succeeds and replaces the stored record with the
fresh `pending` record (plain dict assignment on line 143); the returned
record and all its task records are `pending`. The `wid ≠ ""` hypothesis
reflects that a stored key is never the empty string (Python's
`workflow_request.workflow_id or str(uuid.uuid4())` replaces a falsy id
with a generated uuid). -/
theorem resubmission_replaces (store : String → Option WorkflowRecord)
    (wid : String) (old : WorkflowRecord) (generated_id workflow_type : String)
    (tasks : List AgentTask) (metadata : List (String × String))
    (hold : store wid = some old) (hne : wid ≠ "") :
    (run_graph store (some wid) generated_id workflow_type tasks metadata).1.workflow_id
      = wid ∧
    (run_graph store (some wid) generated_id workflow_type tasks metadata).2 wid
      = some (run_graph store (some wid) generated_id workflow_type tasks metadata).1 ∧
    (run_graph store (some wid) generated_id workflow_type tasks metadata).1.status
      = WStatus.pending ∧
    (∀ t ∈ (run_graph store (some wid) generated_id workflow_type tasks metadata).1.tasks,
      t.status = TStatus.pending) ∧
    (run_graph store (some wid) generated_id workflow_type tasks metadata).1.tasks
      = initRecords wid tasks := by
  simp only [run_graph, if_neg hne]
  refine ⟨trivial, Function.update_same _ _ _, trivial, ?_, trivial⟩
  intro t ht
  rw [initRecords, List.mapIdx_eq_enum_map] at ht
  obtain ⟨⟨i, a⟩, hmem, rfl⟩ := List.mem_map.mp ht
  rfl

/-- Concrete pre-existing record for the C10 witness. -/
def c10Old : WorkflowRecord :=
  { workflow_id := "w1", workflow_type := "sequential", status := WStatus.completed,
    tasks := [], metadata := [] }

/-- Concrete one-entry store for the C10 witness. -/
def c10Store : String → Option WorkflowRecord :=
  Function.update (fun _ => Option.none) "w1" (some c10Old)

/-- Witness for `resubmission_replaces`: resubmitting id `"w1"` over the
one-entry store holding a completed record under `"w1"`. -/
theorem resubmission_replaces_witness :
    (run_graph c10Store (some "w1") "gen" "graph"
      [{ agent_id := "A", agent_role := "backend", input_data := [], depends_on := [] }]
      []).1.workflow_id = "w1" ∧
    (run_graph c10Store (some "w1") "gen" "graph"
      [{ agent_id := "A", agent_role := "backend", input_data := [], depends_on := [] }]
      []).2 "w1"
      = some (run_graph c10Store (some "w1") "gen" "graph"
          [{ agent_id := "A", agent_role := "backend", input_data := [], depends_on := [] }]
          []).1 ∧
    (run_graph c10Store (some "w1") "gen" "graph"
      [{ agent_id := "A", agent_role := "backend", input_data := [], depends_on := [] }]
      []).1.status = WStatus.pending ∧
    (∀ t ∈ (run_graph c10Store (some "w1") "gen" "graph"
      [{ agent_id := "A", agent_role := "backend", input_data := [], depends_on := [] }]
      []).1.tasks, t.status = TStatus.pending) ∧
    (run_graph c10Store (some "w1") "gen" "graph"
      [{ agent_id := "A", agent_role := "backend", input_data := [], depends_on := [] }]
      []).1.tasks
      = initRecords "w1"
          [{ agent_id := "A", agent_role := "backend", input_data := [], depends_on := [] }] :=
  resubmission_replaces c10Store "w1" c10Old "gen" "graph"
    [{ agent_id := "A", agent_role := "backend", input_data := [], depends_on := [] }]
    [] (by simp [c10Store]) (by decide)

/-! ## Claim C5: sequential halt rule -/

/-- On the fault branch `execute_task` returns `None` (line 363), so a
failed task contributes no `previous_result`. -/
theorem execute_task_failed_res (outcome : Except String String) (ts : TaskRecord)
    (h : (execute_task outcome ts).1.status = TStatus.failed) :
    (execute_task outcome ts).2 = Option.none := by
  cases outcome with
  | ok r => simp [execute_task, finishTask, startTask] at h
  | error e => simp [execute_task, finishTask]

/-- Executor for the C5 scenario `[A(backend fails), B(backend), C(qa)]`
and for `[A(qa fails), B(backend succeeds)]`: task 0 faults, the rest
succeed. -/
def c5exec : Nat → Ctx → Except String String := fun k _ =>
  if k = 0 then Except.error "A failed" else Except.ok "ok"

/-- Task definitions `[A(backend), B(backend), C(qa)]`. -/
def c5defs1 : List AgentTask :=
  [{ agent_id := "A", agent_role := "backend", input_data := [], depends_on := [] },
   { agent_id := "B", agent_role := "backend", input_data := [], depends_on := [] },
   { agent_id := "C", agent_role := "qa", input_data := [], depends_on := [] }]

/-- Submitted workflow for the first C5 scenario. -/
def c5w1 : WorkflowRecord :=
  { workflow_id := "w", workflow_type := "sequential", status := WStatus.pending,
    tasks := initRecords "w" c5defs1, metadata := [] }

/-- Task definitions `[A(qa), B(backend)]`. -/
def c5defs2 : List AgentTask :=
  [{ agent_id := "A", agent_role := "qa", input_data := [], depends_on := [] },
   { agent_id := "B", agent_role := "backend", input_data := [], depends_on := [] }]

/-- Submitted workflow for the second C5 scenario. -/
def c5w2 : WorkflowRecord :=
  { workflow_id := "w", workflow_type := "sequential", status := WStatus.pending,
    tasks := initRecords "w" c5defs2, metadata := [] }

/-- C5 (confirmed): in sequential mode, a task that ends `failed` with a
role other than `"qa"` stops the loop (lines 244-245) and every later
record is returned untouched (so still `pending`, permanently — the
aggregation path mutates no task); a task that ends `failed` with role
`"qa"` lets execution proceed to the next task (with `previous_result =
None`, since a failed task returns `None`). Concretely,
`[A(backend fails), B, C(qa)]` ends `[failed, pending, pending]` and
aggregates to `failed`; `[A(qa fails), B(backend succeeds)]` ends
`[failed, completed]` and aggregates to `partial` (`mixed`). -/
theorem sequential_halt_rule :
    (∀ (exec : Nat → Ctx → Except String String) (k : Nat) (prev : Option String)
       (td : AgentTask) (ts : TaskRecord) (rest : List (AgentTask × TaskRecord)),
       (execute_task (exec k (ctxOfPrev prev)) ts).1.status = TStatus.failed →
       td.agent_role ≠ "qa" →
       execute_sequential exec k prev ((td, ts) :: rest) =
         (execute_task (exec k (ctxOfPrev prev)) ts).1 :: rest.map Prod.snd) ∧
    (∀ (exec : Nat → Ctx → Except String String) (k : Nat) (prev : Option String)
       (td : AgentTask) (ts : TaskRecord) (rest : List (AgentTask × TaskRecord)),
       (execute_task (exec k (ctxOfPrev prev)) ts).1.status = TStatus.failed →
       td.agent_role = "qa" →
       execute_sequential exec k prev ((td, ts) :: rest) =
         (execute_task (exec k (ctxOfPrev prev)) ts).1 ::
           execute_sequential exec (k + 1) Option.none rest) ∧
    ((execute_workflow_seq c5exec c5defs1 c5w1).status = WStatus.failed ∧
      (execute_workflow_seq c5exec c5defs1 c5w1).tasks.map TaskRecord.status =
        [TStatus.failed, TStatus.pending, TStatus.pending]) ∧
    ((execute_workflow_seq c5exec c5defs2 c5w2).status = WStatus.mixed ∧
      (execute_workflow_seq c5exec c5defs2 c5w2).tasks.map TaskRecord.status =
        [TStatus.failed, TStatus.completed]) := by
  refine ⟨?_, ?_, by decide, by decide⟩
  · intro exec k prev td ts rest hfail hrole
    simp only [execute_sequential]
    rw [if_pos ⟨hfail, hrole⟩]
  · intro exec k prev td ts rest hfail hrole
    have h2 := execute_task_failed_res (exec k (ctxOfPrev prev)) ts hfail
    simp only [execute_sequential]
    rw [if_neg fun hc => hc.2 hrole, h2]

/-- Failing backend task definition for the C5 witness. -/
def c5wtd : AgentTask :=
  { agent_id := "X", agent_role := "backend", input_data := [], depends_on := [] }

/-- Failing qa task definition for the C5 witness. -/
def c5wtdQa : AgentTask :=
  { agent_id := "Y", agent_role := "qa", input_data := [], depends_on := [] }

/-- Fresh record for the C5 witness. -/
def c5wts : TaskRecord :=
  { task_id := "t", agent_id := "X", agent_role := "backend",
    status := TStatus.pending, result := Option.none, error := Option.none }

/-- Always-failing executor for the C5 witness. -/
def c5wexec : Nat → Ctx → Except String String := fun _ _ => Except.error "e"

/-- Witness for `sequential_halt_rule`: the halt branch at a failing
backend task and the continue branch at a failing qa task. -/
theorem sequential_halt_rule_witness :
    (execute_sequential c5wexec 0 Option.none [(c5wtd, c5wts)] =
      [(execute_task (c5wexec 0 (ctxOfPrev Option.none)) c5wts).1]) ∧
    (execute_sequential c5wexec 0 Option.none [(c5wtdQa, c5wts)] =
      (execute_task (c5wexec 0 (ctxOfPrev Option.none)) c5wts).1 ::
        execute_sequential c5wexec 1 Option.none []) :=
  ⟨sequential_halt_rule.1 c5wexec 0 Option.none c5wtd c5wts [] (by decide) (by decide),
   sequential_halt_rule.2.1 c5wexec 0 Option.none c5wtdQa c5wts [] (by decide) rfl⟩

/-! ## Claim C9: the empty workflow -/

/-- C9 (confirmed): a workflow submitted with an empty task list reaches
`completed` in every mode. Submission creates it `pending`
(`run_graph`), `execute_workflow` sets it `running` (line 198), the
strategy has nothing to do (sequential recursion on `[]`; for parallel and
graph there are zero coroutines, so the initial state is the only reachable
state and the join is trivially complete), and the aggregation
`all()` over zero tasks is true, so lines 209-216 set `completed` — never
`failed` or `partial`. -/
theorem empty_workflow_completed :
    (∀ (exec : Nat → Ctx → Except String String) (w : WorkflowRecord),
       w.tasks = [] →
       (execute_workflow_seq exec [] w).status = WStatus.completed ∧
       (execute_workflow_seq exec [] w).tasks = []) ∧
    (∀ (exec : Fin 0 → Ctx → Except String String) (defs : Fin 0 → AgentTask)
       (recs : Fin 0 → TaskRecord) (s : GState 0),
       GReach exec defs recs s →
       allDone s ∧
       aggregateStatus (List.ofFn s.records) WStatus.running = WStatus.completed) ∧
    (∀ (exec : Fin 0 → Ctx → Except String String)
       (recs : Fin 0 → TaskRecord) (s : PState 0),
       PReach exec recs s →
       (∀ i, s.phase i = Phase.done) ∧
       aggregateStatus (List.ofFn s.records) WStatus.running = WStatus.completed) ∧
    aggregateStatus [] WStatus.running = WStatus.completed := by
  refine ⟨?_, ?_, ?_, by decide⟩
  · intro exec w hw
    constructor
    · simp [execute_workflow_seq, execute_sequential, aggregateStatus]
    · simp [execute_workflow_seq, execute_sequential]
  · intro exec defs recs s _
    refine ⟨fun i => i.elim0, ?_⟩
    rw [List.ofFn_zero]
    decide
  · intro exec recs s _
    refine ⟨fun i => i.elim0, ?_⟩
    rw [List.ofFn_zero]
    decide

/-- Empty workflow record for the C9 witness. -/
def c9W : WorkflowRecord :=
  { workflow_id := "w", workflow_type := "sequential", status := WStatus.pending,
    tasks := [], metadata := [] }

/-- Witness for `empty_workflow_completed` at the empty workflow and the
initial (and only reachable) graph and parallel states over zero tasks. -/
theorem empty_workflow_completed_witness :
    ((execute_workflow_seq (fun _ _ => Except.ok "r") [] c9W).status = WStatus.completed ∧
      (execute_workflow_seq (fun _ _ => Except.ok "r") [] c9W).tasks = []) ∧
    (allDone (initG (Fin.elim0 : Fin 0 → TaskRecord)) ∧
      aggregateStatus (List.ofFn (initG (Fin.elim0 : Fin 0 → TaskRecord)).records) WStatus.running
        = WStatus.completed) ∧
    (∀ i, (initP (Fin.elim0 : Fin 0 → TaskRecord)).phase i = Phase.done) ∧
    aggregateStatus (List.ofFn (initP (Fin.elim0 : Fin 0 → TaskRecord)).records) WStatus.running
      = WStatus.completed :=
  ⟨empty_workflow_completed.1 (fun _ _ => Except.ok "r") c9W rfl,
   empty_workflow_completed.2.1 Fin.elim0 Fin.elim0 Fin.elim0 _ Relation.ReflTransGen.refl,
   empty_workflow_completed.2.2.1 Fin.elim0 Fin.elim0 _ Relation.ReflTransGen.refl⟩

/-! ## Claim C4: per-task status transitions -/

/-- `allowedTrans` lifted to records. -/
def recTrans (x y : TaskRecord) : Prop := allowedTrans x.status y.status

theorem forall2_recTrans_refl (l : List TaskRecord) :
    List.Forall₂ recTrans l l := by
  induction l with
  | nil => exact List.Forall₂.nil
  | cons a l ih => exact List.Forall₂.cons (Or.inl rfl) ih

theorem forall2_recTrans_mid (done rest : List TaskRecord) (a b : TaskRecord)
    (hab : allowedTrans a.status b.status) :
    List.Forall₂ recTrans (done ++ a :: rest) (done ++ b :: rest) := by
  induction done with
  | nil => exact List.Forall₂.cons hab (forall2_recTrans_refl rest)
  | cons x xs ih => exact List.Forall₂.cons (Or.inl rfl) ih

/-- Snapshot trace of `execute_sequential`: the record list as visible to a
concurrent status read, two snapshots per executed task — after
`execute_task` sets `running` (line 330) and after the terminal transition
(lines 353-363). `done` carries the already-finished records, and the halt
branch of lines 244-245 ends the trace. -/
def seqTrace (exec : Nat → Ctx → Except String String) :
    Nat → Option String → List TaskRecord → List (AgentTask × TaskRecord) →
    List (List TaskRecord)
  | _, _, _, [] => []
  | k, prev, done, (td, ts) :: rest =>
    (done ++ startTask ts :: rest.map Prod.snd) ::
    (done ++ (execute_task (exec k (ctxOfPrev prev)) ts).1 :: rest.map Prod.snd) ::
    (if (execute_task (exec k (ctxOfPrev prev)) ts).1.status = TStatus.failed ∧
        td.agent_role ≠ "qa" then []
     else seqTrace exec (k + 1) (execute_task (exec k (ctxOfPrev prev)) ts).2
            (done ++ [(execute_task (exec k (ctxOfPrev prev)) ts).1]) rest)

theorem seq_trace_chain (exec : Nat → Ctx → Except String String)
    (k : Nat) (prev : Option String) (done : List TaskRecord)
    (l : List (AgentTask × TaskRecord))
    (hl : ∀ p ∈ l, p.2.status = TStatus.pending) :
    List.Chain' (List.Forall₂ recTrans)
      ((done ++ l.map Prod.snd) :: seqTrace exec k prev done l) := by
  induction l generalizing k prev done with
  | nil => simp [seqTrace]
  | cons p rest ih =>
    obtain ⟨td, ts⟩ := p
    have hts : ts.status = TStatus.pending := hl (td, ts) (List.mem_cons_self _ _)
    have hrest : ∀ q ∈ rest, q.2.status = TStatus.pending :=
      fun q hq => hl q (List.mem_cons_of_mem _ hq)
    have hrun : allowedTrans (startTask ts).status
        ((execute_task (exec k (ctxOfPrev prev)) ts).1.status) := by
      cases hout : exec k (ctxOfPrev prev) with
      | ok r =>
        simp only [execute_task, finishTask, startTask, hout]
        exact Or.inr (Or.inr ⟨rfl, Or.inl rfl⟩)
      | error e =>
        simp only [execute_task, finishTask, startTask, hout]
        exact Or.inr (Or.inr ⟨rfl, Or.inr rfl⟩)
    simp only [seqTrace, List.map_cons]
    rw [List.chain'_cons]
    refine ⟨forall2_recTrans_mid done (rest.map Prod.snd) ts (startTask ts)
      (Or.inr (Or.inl ⟨hts, rfl⟩)), ?_⟩
    rw [List.chain'_cons]
    refine ⟨forall2_recTrans_mid done (rest.map Prod.snd) (startTask ts)
      (execute_task (exec k (ctxOfPrev prev)) ts).1 hrun, ?_⟩
    split_ifs with hhalt
    · exact List.chain'_singleton _
    · have htail := ih (k + 1) (execute_task (exec k (ctxOfPrev prev)) ts).2
        (done ++ [(execute_task (exec k (ctxOfPrev prev)) ts).1]) hrest
      rw [List.append_assoc, List.singleton_append] at htail
      exact htail

/-- Any `execute_graph` scheduler step moves each record along an allowed
transition only. -/
theorem gstep_allowed (exec : Fin n → Ctx → Except String String)
    (defs : Fin n → AgentTask) (recs : Fin n → TaskRecord) (s s' : GState n)
    (hinit : initOK recs) (hreach : GReach exec defs recs s)
    (hstep : GStep exec defs s s') (i : Fin n) :
    allowedTrans ((s.records i).status) ((s'.records i).status) := by
  have hinv := ginv_reach exec defs recs s hinit hreach
  cases hstep with
  | start j hph hdeps =>
    by_cases h : i = j
    · subst h
      have hp := (hinv.ph_waiting i hph).1
      simp only [gStart, Function.update_same]
      exact Or.inr (Or.inl ⟨hp, rfl⟩)
    · simp only [gStart, Function.update_noteq h]
      exact Or.inl rfl
  | finish j ctx hph =>
    by_cases h : i = j
    · subst h
      have hr := (hinv.ph_active i ctx hph).1
      simp only [gFinish, Function.update_same]
      cases hout : exec i ctx with
      | ok r => exact Or.inr (Or.inr ⟨hr, Or.inl (by simp [finishTask])⟩)
      | error e => exact Or.inr (Or.inr ⟨hr, Or.inr (by simp [finishTask])⟩)
    · simp only [gFinish, Function.update_noteq h]
      exact Or.inl rfl
  | crash j d hph hd hghost => exact Or.inl rfl

/-- Any `execute_parallel` scheduler step moves each record along an
allowed transition only. -/
theorem pstep_allowed (exec : Fin n → Ctx → Except String String)
    (recs : Fin n → TaskRecord) (s s' : PState n)
    (hinit : initOK recs) (hreach : PReach exec recs s)
    (hstep : PStep exec s s') (i : Fin n) :
    allowedTrans ((s.records i).status) ((s'.records i).status) := by
  have hinv := pinv_reach exec recs s hinit hreach
  cases hstep with
  | start j hph =>
    by_cases h : i = j
    · subst h
      have hp := hinv.ph_waiting i hph
      simp only [pStart, Function.update_same]
      exact Or.inr (Or.inl ⟨hp, rfl⟩)
    · simp only [pStart, Function.update_noteq h]
      exact Or.inl rfl
  | finish j ctx hph =>
    by_cases h : i = j
    · subst h
      have hr := hinv.ph_active i ctx hph
      simp only [pFinish, Function.update_same]
      cases hout : exec i Ctx.none with
      | ok r => exact Or.inr (Or.inr ⟨hr, Or.inl (by simp [finishTask])⟩)
      | error e => exact Or.inr (Or.inr ⟨hr, Or.inr (by simp [finishTask])⟩)
    · simp only [pFinish, Function.update_noteq h]
      exact Or.inl rfl

/-- C4 (corrected): in every strategy — graph and parallel under any
asyncio schedule, sequential through every observable snapshot — each
record only ever stays put, moves `pending → running`, or moves
`running → completed/failed`: no record reaches a terminal state without
being `running` first and none leaves a terminal state. The claim's
inclusion of the forced-failure path is wrong, however: the
orchestration-fault handler moves a `pending` task DIRECTLY to `failed`
(no intervening `running`; see `fault_skips_running_counterexample`);
terminal tasks are still never touched. -/
theorem status_transition_discipline :
    (∀ (n : Nat) (exec : Fin n → Ctx → Except String String)
       (defs : Fin n → AgentTask) (recs : Fin n → TaskRecord) (s s' : GState n),
       initOK recs → GReach exec defs recs s → GStep exec defs s s' →
       ∀ i, allowedTrans ((s.records i).status) ((s'.records i).status)) ∧
    (∀ (n : Nat) (exec : Fin n → Ctx → Except String String)
       (recs : Fin n → TaskRecord) (s s' : PState n),
       initOK recs → PReach exec recs s → PStep exec s s' →
       ∀ i, allowedTrans ((s.records i).status) ((s'.records i).status)) ∧
    (∀ (exec : Nat → Ctx → Except String String) (k : Nat) (prev : Option String)
       (done : List TaskRecord) (l : List (AgentTask × TaskRecord)),
       (∀ p ∈ l, p.2.status = TStatus.pending) →
       List.Chain' (List.Forall₂ recTrans)
         ((done ++ l.map Prod.snd) :: seqTrace exec k prev done l)) ∧
    (∀ (msg : String) (t : TaskRecord),
       ((t.status = TStatus.pending ∨ t.status = TStatus.running) →
         (faultTask msg t).status = TStatus.failed) ∧
       ((t.status = TStatus.completed ∨ t.status = TStatus.failed) →
         faultTask msg t = t)) :=
  ⟨fun _ exec defs recs s s' hinit hreach hstep i =>
     gstep_allowed exec defs recs s s' hinit hreach hstep i,
   fun _ exec recs s s' hinit hreach hstep i =>
     pstep_allowed exec recs s s' hinit hreach hstep i,
   fun exec k prev done l hl => seq_trace_chain exec k prev done l hl,
   fun msg t =>
     ⟨fun ht => by rw [faultTask, if_pos ht],
      fun ht => by rcases ht with h | h <;> simp [faultTask, h]⟩⟩

/-- C4 counterexample: the fault handler takes a `pending` record straight
to `failed`, a transition the claimed state machine
(`Pending → Running → terminal` only) does not contain. -/
theorem fault_skips_running_counterexample :
    (faultTask "boom"
      { task_id := "w-task-0", agent_id := "A", agent_role := "backend",
        status := TStatus.pending, result := Option.none, error := Option.none }).status
      = TStatus.failed ∧
    ({ task_id := "w-task-0", agent_id := "A", agent_role := "backend",
       status := TStatus.pending, result := Option.none, error := Option.none }
      : TaskRecord).status = TStatus.pending ∧
    ¬ allowedTrans TStatus.pending TStatus.failed := by
  decide

/-- Executor for the C4 witness. -/
def c4exec : Fin 1 → Ctx → Except String String := fun _ _ => Except.ok "r"

/-- Task definition for the C4 witness. -/
def c4defs : Fin 1 → AgentTask := fun _ =>
  { agent_id := "A", agent_role := "backend", input_data := [], depends_on := [] }

/-- Fresh record for the C4 witness. -/
def c4recs : Fin 1 → TaskRecord := fun _ =>
  { task_id := "w-task-0", agent_id := "A", agent_role := "backend",
    status := TStatus.pending, result := Option.none, error := Option.none }

/-- Pending record for the C4 witness fault part. -/
def c4pend : TaskRecord :=
  { task_id := "w-task-1", agent_id := "B", agent_role := "backend",
    status := TStatus.pending, result := Option.none, error := Option.none }

/-- Witness for `status_transition_discipline`: a concrete start step of
each machine, the empty sequential trace, and a fault on a pending task. -/
theorem status_transition_discipline_witness :
    allowedTrans (((initG c4recs).records 0).status)
      (((gStart c4defs (initG c4recs) 0).records 0).status) ∧
    allowedTrans (((initP c4recs).records 0).status)
      (((pStart (initP c4recs) 0).records 0).status) ∧
    List.Chain' (List.Forall₂ recTrans)
      ((([] : List TaskRecord) ++
          ([] : List (AgentTask × TaskRecord)).map Prod.snd) ::
        seqTrace (fun _ _ => Except.ok "r") 0 Option.none [] []) ∧
    (faultTask "m" c4pend).status = TStatus.failed :=
  ⟨status_transition_discipline.1 1 c4exec c4defs c4recs _ _ (fun _ => ⟨rfl, rfl⟩)
      Relation.ReflTransGen.refl (GStep.start _ 0 rfl (by decide)) 0,
   status_transition_discipline.2.1 1 c4exec c4recs _ _ (fun _ => ⟨rfl, rfl⟩)
      Relation.ReflTransGen.refl (PStep.start _ 0 rfl) 0,
   status_transition_discipline.2.2.1 (fun _ _ => Except.ok "r") 0 Option.none [] []
      (by decide),
   (status_transition_discipline.2.2.2 "m" c4pend).1 (Or.inl rfl)⟩

/-! ## Claim C6: no early start in graph mode -/

/-- C6 (confirmed): under any asyncio schedule of `execute_graph`, a task's
record moves `pending → running` only at a `start` step, whose guard is
that every declared dependency's event is set (lines 282-287); a set event
belongs to a coroutine that has returned, whose record is terminal — so at
the moment a task starts, every dependency names a task whose record is
`completed` or `failed`. A task with an empty `depends_on` list skips the
wait entirely: its `start` step is enabled in any state where it is still
waiting. -/
theorem graph_no_early_start :
    (∀ (n : Nat) (exec : Fin n → Ctx → Except String String)
       (defs : Fin n → AgentTask) (recs : Fin n → TaskRecord) (s s' : GState n)
       (i : Fin n),
       initOK recs → GReach exec defs recs s → GStep exec defs s s' →
       (s.records i).status = TStatus.pending →
       (s'.records i).status = TStatus.running →
       ∀ d ∈ (defs i).depends_on, ∃ j, (defs j).agent_id = d ∧
         ((s.records j).status = TStatus.completed ∨
          (s.records j).status = TStatus.failed)) ∧
    (∀ (n : Nat) (exec : Fin n → Ctx → Except String String)
       (defs : Fin n → AgentTask) (s : GState n) (i : Fin n),
       s.phase i = Phase.waiting → (defs i).depends_on = [] →
       GStep exec defs s (gStart defs s i) ∧
       ((gStart defs s i).records i).status = TStatus.running) := by
  constructor
  · intro n exec defs recs s s' i hinit hreach hstep hp hr
    have hinv := ginv_reach exec defs recs s hinit hreach
    cases hstep with
    | start j hph hdeps =>
      by_cases h : i = j
      · subst h
        intro d hd
        obtain ⟨k, hk, ha⟩ := hinv.ev_done d (hdeps d hd)
        exact ⟨k, ha, hinv.ph_done k hk⟩
      · simp only [gStart, Function.update_noteq h] at hr
        rw [hp] at hr
        cases hr
    | finish j ctx hph =>
      by_cases h : i = j
      · subst h
        have hrun := (hinv.ph_active i ctx hph).1
        rw [hp] at hrun
        cases hrun
      · simp only [gFinish, Function.update_noteq h] at hr
        rw [hp] at hr
        cases hr
    | crash j d hph hd hghost =>
      simp only [gCrash] at hr
      rw [hp] at hr
      cases hr
  · intro n exec defs s i hph hdeps
    refine ⟨GStep.start s i hph ?_, ?_⟩
    · intro d hd
      rw [hdeps] at hd
      exact absurd hd (List.not_mem_nil d)
    · simp [gStart, Function.update_same, startTask]

/-- Executor for the C6 witness. -/
def c6exec : Fin 2 → Ctx → Except String String := fun _ _ => Except.ok "ok"

/-- Definitions for the C6 witness: `A` with no dependencies, `B`
depending on `"A"`. -/
def c6defs : Fin 2 → AgentTask := fun i =>
  if i = 0 then
    { agent_id := "A", agent_role := "backend", input_data := [], depends_on := [] }
  else
    { agent_id := "B", agent_role := "backend", input_data := [], depends_on := ["A"] }

/-- Fresh records for the C6 witness. -/
def c6recs : Fin 2 → TaskRecord := fun i =>
  if i = 0 then
    { task_id := "w-task-0", agent_id := "A", agent_role := "backend",
      status := TStatus.pending, result := Option.none, error := Option.none }
  else
    { task_id := "w-task-1", agent_id := "B", agent_role := "backend",
      status := TStatus.pending, result := Option.none, error := Option.none }

/-- State after `A` started. -/
def c6s1 : GState 2 := gStart c6defs (initG c6recs) 0

/-- State after `A` finished (terminal, event `"A"` fired). -/
def c6s2 : GState 2 := gFinish c6exec c6defs c6s1 0 Ctx.none

/-- Witness for `graph_no_early_start`: `B` starts in the reachable state
where `A` has finished, and its dependency `"A"` is indeed terminal there;
and `A` (no dependencies) can start from the initial state. -/
theorem graph_no_early_start_witness :
    (∀ d ∈ (c6defs 1).depends_on, ∃ j, (c6defs j).agent_id = d ∧
      ((c6s2.records j).status = TStatus.completed ∨
       (c6s2.records j).status = TStatus.failed)) ∧
    (GStep c6exec c6defs (initG c6recs) (gStart c6defs (initG c6recs) 0) ∧
      ((gStart c6defs (initG c6recs) 0).records 0).status = TStatus.running) := by
  have step1 : GStep c6exec c6defs (initG c6recs) c6s1 :=
    GStep.start _ 0 rfl (by decide)
  have step2 : GStep c6exec c6defs c6s1 c6s2 :=
    GStep.finish _ 0 Ctx.none (by decide)
  have hreach : GReach c6exec c6defs c6recs c6s2 :=
    Relation.ReflTransGen.tail
      (Relation.ReflTransGen.tail Relation.ReflTransGen.refl step1) step2
  have hinit : initOK c6recs := by
    intro i
    by_cases h : i = 0 <;> simp [c6recs, h]
  exact ⟨graph_no_early_start.1 2 c6exec c6defs c6recs c6s2
      (gStart c6defs c6s2 1) 1 hinit hreach
      (GStep.start _ 1 (by decide) (by decide)) (by decide) (by decide),
    graph_no_early_start.2 2 c6exec c6defs (initG c6recs) 0 rfl (by decide)⟩

/-! ## Claim C7: dangling dependency reference -/

/-- C7 (corrected): a dependency id that names no task of the workflow
does NOT make the strategy suspend indefinitely. `task_events` is keyed by
the workflow's own agent ids (lines 276-277), so the dependent coroutine's
first slice raises `KeyError` at the comprehension of line 285, before any
wait; the exception is swallowed by the line-312
`gather(..., return_exceptions=True)`. In every reachable state the
dependent's record is exactly its submission-time record (never executed,
still `pending`, nothing recorded in its error field) and its coroutine is
either still waiting or crashed — it never starts and never returns
normally; from any state where it still waits, the crash step is enabled;
and whenever the line-312 join completes (the strategy returns), it
completes with this coroutine crashed — the task is silently left
`pending`, no error reported (see
`graph_missing_dep_crash_counterexample` for a complete such run). -/
theorem graph_missing_dep_crashes (n : Nat)
    (exec : Fin n → Ctx → Except String String) (defs : Fin n → AgentTask)
    (recs : Fin n → TaskRecord) (s : GState n) (i : Fin n) (d : String)
    (hinit : initOK recs) (hd : d ∈ (defs i).depends_on)
    (hghost : ∀ j, (defs j).agent_id ≠ d)
    (hreach : GReach exec defs recs s) :
    s.records i = recs i ∧
    (s.records i).status = TStatus.pending ∧
    (s.phase i = Phase.waiting ∨ s.phase i = Phase.crashed) ∧
    (s.phase i = Phase.waiting → GStep exec defs s (gCrash s i)) ∧
    (allDone s → s.phase i = Phase.crashed) := by
  have hmain : s.records i = recs i ∧
      (s.phase i = Phase.waiting ∨ s.phase i = Phase.crashed) := by
    induction hreach with
    | refl => exact ⟨rfl, Or.inl rfl⟩
    | @tail b c hb hstep ih =>
      have hinv := ginv_reach exec defs recs b hinit hb
      cases hstep with
      | start j hph hdeps =>
        by_cases h : j = i
        · subst h
          exfalso
          obtain ⟨k, hk, ha⟩ := hinv.ev_done d (hdeps d hd)
          exact hghost k ha
        · refine ⟨?_, ?_⟩
          · simp only [gStart, Function.update_noteq (Ne.symm h)]
            exact ih.1
          · simp only [gStart, Function.update_noteq (Ne.symm h)]
            exact ih.2
      | finish j ctx hph =>
        by_cases h : j = i
        · subst h
          rcases ih.2 with hw | hc
          · rw [hw] at hph
            cases hph
          · rw [hc] at hph
            cases hph
        · refine ⟨?_, ?_⟩
          · simp only [gFinish, Function.update_noteq (Ne.symm h)]
            exact ih.1
          · simp only [gFinish, Function.update_noteq (Ne.symm h)]
            exact ih.2
      | crash j dd hph hdd hghost2 =>
        by_cases h : j = i
        · subst h
          exact ⟨ih.1, Or.inr (by simp [gCrash, Function.update_same])⟩
        · refine ⟨ih.1, ?_⟩
          simp only [gCrash, Function.update_noteq (Ne.symm h)]
          exact ih.2
  refine ⟨hmain.1, ?_, hmain.2, ?_, ?_⟩
  · rw [hmain.1]
    exact (hinit i).1
  · intro hw
    exact GStep.crash s i d hw hd hghost
  · intro hall
    rcases hall i with hdone | hcr
    · rcases hmain.2 with hw | hc
      · rw [hw] at hdone
        cases hdone
      · rw [hc] at hdone
        cases hdone
    · exact hcr

/-- Executor for the C7 instance. -/
def c7exec : Fin 1 → Ctx → Except String String := fun _ _ => Except.ok "ok"

/-- Definition for the C7 instance: `B` depends on `"ghost"`, which names
no task. -/
def c7defs : Fin 1 → AgentTask := fun _ =>
  { agent_id := "B", agent_role := "backend", input_data := [], depends_on := ["ghost"] }

/-- Fresh record for the C7 instance. -/
def c7recs : Fin 1 → TaskRecord := fun _ =>
  { task_id := "w-task-0", agent_id := "B", agent_role := "backend",
    status := TStatus.pending, result := Option.none, error := Option.none }

/-- State after the ghost-dependent coroutine crashed. -/
def c7s1 : GState 1 := gCrash (initG c7recs) 0

/-- C7 counterexample: a complete run of the one-task workflow whose only
task depends on the nonexistent `"ghost"`: one crash step (the swallowed
`KeyError` of line 285) reaches a state where every coroutine has
terminated — the line-312 join completes, so `execute_graph` RETURNS —
while the task was never executed: still `pending`, no error recorded,
its coroutine never `done`. This refutes the claim that the dependent
"waits forever" and that "the strategy suspends indefinitely rather than
returning". -/
theorem graph_missing_dep_crash_counterexample :
    GReach c7exec c7defs c7recs c7s1 ∧
    allDone c7s1 ∧
    (c7s1.records 0).status = TStatus.pending ∧
    (c7s1.records 0).error = Option.none ∧
    c7s1.phase 0 ≠ Phase.done := by
  refine ⟨?_, ?_, by decide, by decide, by decide⟩
  · exact Relation.ReflTransGen.tail Relation.ReflTransGen.refl
      (GStep.crash _ 0 "ghost" rfl (by decide) (by decide))
  · intro i
    have h0 : i = 0 := Subsingleton.elim i 0
    rw [h0]
    exact Or.inr (by decide)

/-- Witness for `graph_missing_dep_crashes` at the initial state of the
one-task workflow whose only task depends on the nonexistent `"ghost"`. -/
theorem graph_missing_dep_crashes_witness :
    (initG c7recs).records 0 = c7recs 0 ∧
    ((initG c7recs).records 0).status = TStatus.pending ∧
    ((initG c7recs).phase 0 = Phase.waiting ∨
      (initG c7recs).phase 0 = Phase.crashed) ∧
    ((initG c7recs).phase 0 = Phase.waiting →
      GStep c7exec c7defs (initG c7recs) (gCrash (initG c7recs) 0)) ∧
    (allDone (initG c7recs) → (initG c7recs).phase 0 = Phase.crashed) :=
  graph_missing_dep_crashes 1 c7exec c7defs c7recs (initG c7recs) 0 "ghost"
    (fun _ => ⟨rfl, rfl⟩) (by decide) (by decide) Relation.ReflTransGen.refl

/-! ## Claim C8: event-based signaling versus polling -/

/-- C8 (corrected): in `main.py`'s `execute_graph`, dependency resolution
IS event-based — the fired-event set only grows, each agent id fires at
most once per run (single-fire), an event fires exactly at the step where
its task reaches a terminal state, and a waiting task proceeds only via the
`start` guard over fired events (the model has no re-check loop because
lines 282-287 await events, never sleep-poll). The claim is wrong for the
repository's other graph executor, though: the dependency wait of
`swarms_integration.execute_with_deps` (lines 201-203) POLLS — each check
of the shared `results` dict that finds a dependency missing costs one
`asyncio.sleep(0.1)` followed by a re-check, and the wait returns only at a
snapshot satisfying the guard (see `poll_loop_counterexample`). -/
theorem graph_signaling_amended :
    (∀ (n : Nat) (exec : Fin n → Ctx → Except String String)
       (defs : Fin n → AgentTask) (s s' : GState n),
       GStep exec defs s s' → ∀ a ∈ s.events, a ∈ s'.events) ∧
    (∀ (n : Nat) (exec : Fin n → Ctx → Except String String)
       (defs : Fin n → AgentTask) (recs : Fin n → TaskRecord) (s : GState n),
       agentInj defs → initOK recs → GReach exec defs recs s →
       s.events.Nodup) ∧
    (∀ (n : Nat) (exec : Fin n → Ctx → Except String String)
       (defs : Fin n → AgentTask) (s s' : GState n),
       GStep exec defs s s' → ∀ a, a ∈ s'.events → a ∉ s.events →
       ∃ i, (defs i).agent_id = a ∧
         ((s'.records i).status = TStatus.completed ∨
          (s'.records i).status = TStatus.failed)) ∧
    (∀ (snap : List (String × String)) (rest : List (List (String × String)))
       (deps : List String),
       (depsMet snap deps = false →
         pollSleeps (snap :: rest) deps = pollSleeps rest deps + 1) ∧
       (depsMet snap deps = true → pollSleeps (snap :: rest) deps = 0)) := by
  refine ⟨?_, ?_, ?_, ?_⟩
  · intro n exec defs s s' hstep a ha
    cases hstep with
    | start i hph hdeps => exact ha
    | finish i ctx hph => exact List.mem_cons_of_mem _ ha
    | crash i d hph hd hghost => exact ha
  · intro n exec defs recs s hinj hinit hreach
    exact events_nodup exec defs recs s hinj hinit hreach
  · intro n exec defs s s' hstep a ha hnot
    cases hstep with
    | start i hph hdeps => exact absurd ha hnot
    | crash i d hph hd hghost => exact absurd ha hnot
    | finish i ctx hph =>
      rcases List.mem_cons.mp ha with h | h
      · refine ⟨i, h.symm, ?_⟩
        simp only [gFinish, Function.update_same]
        cases hout : exec i ctx <;> simp [finishTask]
      · exact absurd h hnot
  · intro snap rest deps
    constructor
    · intro h
      simp [pollSleeps, h]
    · intro h
      simp [pollSleeps, h]

/-- C8 counterexample: the Swarms graph executor's dependency wait,
observing `results` snapshots `[]`, `[]`, `[("A", "r")]` for dependency
list `["A"]`, performs two sleep-and-re-check iterations before it
proceeds — a polling loop, refuting "never polls / no loop that repeatedly
sleeps and re-checks whether dependencies have finished". -/
theorem poll_loop_counterexample :
    pollSleeps [[], [], [("A", "r")]] ["A"] = 2 ∧
    depsMet [] ["A"] = false ∧
    depsMet [("A", "r")] ["A"] = true := by
  decide

/-- Executor for the C8 witness. -/
def c8exec : Fin 2 → Ctx → Except String String := fun _ _ => Except.ok "ok"

/-- Definitions for the C8 witness: two independent tasks `A` and `B`. -/
def c8defs : Fin 2 → AgentTask := fun i =>
  if i = 0 then
    { agent_id := "A", agent_role := "backend", input_data := [], depends_on := [] }
  else
    { agent_id := "B", agent_role := "backend", input_data := [], depends_on := [] }

/-- Fresh records for the C8 witness. -/
def c8recs : Fin 2 → TaskRecord := fun i =>
  if i = 0 then
    { task_id := "w-task-0", agent_id := "A", agent_role := "backend",
      status := TStatus.pending, result := Option.none, error := Option.none }
  else
    { task_id := "w-task-1", agent_id := "B", agent_role := "backend",
      status := TStatus.pending, result := Option.none, error := Option.none }

/-- State after `A` started. -/
def c8s1 : GState 2 := gStart c8defs (initG c8recs) 0

/-- State after `A` finished. -/
def c8s2 : GState 2 := gFinish c8exec c8defs c8s1 0 Ctx.none

/-- Witness for `graph_signaling_amended`: monotonicity of the fired set
across `B`'s start step, no-duplicates at the initial state, the fired
event `"A"` pointing at a terminal record across `A`'s finish step, and
one concrete unmet poll check. -/
theorem graph_signaling_amended_witness :
    ("A" ∈ (gStart c8defs c8s2 1).events) ∧
    (initG c8recs).events.Nodup ∧
    (∃ i, (c8defs i).agent_id = "A" ∧
      ((c8s2.records i).status = TStatus.completed ∨
       (c8s2.records i).status = TStatus.failed)) ∧
    pollSleeps [[]] ["A"] = pollSleeps [] ["A"] + 1 := by
  have hinit : initOK c8recs := by
    intro i
    by_cases h : i = 0 <;> simp [c8recs, h]
  refine ⟨?_, ?_, ?_, ?_⟩
  · exact graph_signaling_amended.1 2 c8exec c8defs c8s2 (gStart c8defs c8s2 1)
      (GStep.start _ 1 (by decide) (by decide)) "A" (by decide)
  · exact graph_signaling_amended.2.1 2 c8exec c8defs c8recs (initG c8recs)
      (by decide) hinit Relation.ReflTransGen.refl
  · exact graph_signaling_amended.2.2.1 2 c8exec c8defs c8s1 c8s2
      (GStep.finish _ 0 Ctx.none (by decide)) "A" (by decide) (by decide)
  · exact (graph_signaling_amended.2.2.2 [] [] ["A"]).1 (by decide)

/-! ## Claim C3: context entries for failed dependencies -/

/-- C3 (corrected): when a dependent task proceeds (all dependency events
fired), its `dep_results` context contains an entry for EVERY declared
dependency — the keys of the map are exactly the `depends_on` list. A
dependency that failed is NOT absent: `execute_with_deps` stores the
`None` returned by `execute_task` into `completed_tasks` unconditionally
(line 299), so the failed dependency's id maps to an empty (`None`) value
(see `graph_failed_dep_entry_counterexample`). A completed dependency's id
maps to its recorded result. -/
theorem graph_ctx_entries (n : Nat)
    (exec : Fin n → Ctx → Except String String) (defs : Fin n → AgentTask)
    (recs : Fin n → TaskRecord) (s : GState n) (i : Fin n)
    (hinj : agentInj defs) (hinit : initOK recs) (hreach : GReach exec defs recs s)
    (hne : (defs i).depends_on ≠ [])
    (hdeps : ∀ d ∈ (defs i).depends_on, d ∈ s.events) :
    mkCtx (defs i).depends_on s.completed_tasks =
      Ctx.deps ((defs i).depends_on.map fun d =>
        (d, (ctFind s.completed_tasks d).getD Option.none)) ∧
    (((defs i).depends_on.map fun d =>
        (d, (ctFind s.completed_tasks d).getD Option.none)).map Prod.fst =
      (defs i).depends_on) ∧
    (∀ d ∈ (defs i).depends_on, ∃ j, (defs j).agent_id = d ∧
      ((s.records j).status = TStatus.completed ∨
       (s.records j).status = TStatus.failed) ∧
      (d, (s.records j).result) ∈
        ((defs i).depends_on.map fun d' =>
          (d', (ctFind s.completed_tasks d').getD Option.none)) ∧
      ((s.records j).status = TStatus.failed →
        (d, Option.none) ∈
          ((defs i).depends_on.map fun d' =>
            (d', (ctFind s.completed_tasks d').getD Option.none)))) := by
  have hinv := ginv_reach exec defs recs s hinit hreach
  have hct := ct_done exec defs recs s hinj hinit hreach
  refine ⟨?_, ?_, ?_⟩
  · rw [mkCtx, if_neg]
    simp only [List.isEmpty_iff]
    exact hne
  · rw [List.map_map]
    generalize (defs i).depends_on = L
    induction L with
    | nil => rfl
    | cons x xs ih => exact congrArg (List.cons x) ih
  · intro d hd
    obtain ⟨j, hj, ha⟩ := hinv.ev_done d (hdeps d hd)
    have hterm := hinv.ph_done j hj
    have hlook : ctFind s.completed_tasks d = some ((s.records j).result) := by
      rw [← ha]
      exact hct j hj
    refine ⟨j, ha, hterm, ?_, ?_⟩
    · refine List.mem_map.mpr ⟨d, hd, ?_⟩
      rw [hlook]
      rfl
    · intro hfail
      have hres : (s.records j).result = Option.none := hinv.failed_res j hfail
      refine List.mem_map.mpr ⟨d, hd, ?_⟩
      rw [hlook, hres]
      rfl

/-- Executor for the C3 instance: `A` faults, `B` succeeds. -/
def c3exec : Fin 2 → Ctx → Except String String := fun i _ =>
  if i = 0 then Except.error "boom" else Except.ok "ok"

/-- Definitions for the C3 instance: `B` depends on `A`. -/
def c3defs : Fin 2 → AgentTask := fun i =>
  if i = 0 then
    { agent_id := "A", agent_role := "backend", input_data := [], depends_on := [] }
  else
    { agent_id := "B", agent_role := "backend", input_data := [], depends_on := ["A"] }

/-- Fresh records for the C3 instance. -/
def c3recs : Fin 2 → TaskRecord := fun i =>
  if i = 0 then
    { task_id := "w-task-0", agent_id := "A", agent_role := "backend",
      status := TStatus.pending, result := Option.none, error := Option.none }
  else
    { task_id := "w-task-1", agent_id := "B", agent_role := "backend",
      status := TStatus.pending, result := Option.none, error := Option.none }

/-- State after `A` started. -/
def c3s1 : GState 2 := gStart c3defs (initG c3recs) 0

/-- State after `A` failed (its event fired, `completed_tasks["A"] = None`). -/
def c3s2 : GState 2 := gFinish c3exec c3defs c3s1 0 Ctx.none

/-- State after `B` started, capturing its `dep_results` context. -/
def c3s3 : GState 2 := gStart c3defs c3s2 1

/-- C3 counterexample: in the reachable run where `A` FAILED, the context
captured for `B` is the map `[("A", None)]` — the failed dependency's
agent id is PRESENT as a key (mapped to the empty `None` value), refuting
the claim that the map "contains no entry for any dependency whose task
Failed". -/
theorem graph_failed_dep_entry_counterexample :
    GReach c3exec c3defs c3recs c3s3 ∧
    (c3s2.records 0).status = TStatus.failed ∧
    c3s3.phase 1 = Phase.active (Ctx.deps [("A", Option.none)]) ∧
    ctFind [("A", Option.none)] "A" = some Option.none := by
  refine ⟨?_, by decide, by decide, by decide⟩
  have step1 : GStep c3exec c3defs (initG c3recs) c3s1 :=
    GStep.start _ 0 rfl (by decide)
  have step2 : GStep c3exec c3defs c3s1 c3s2 :=
    GStep.finish _ 0 Ctx.none (by decide)
  have step3 : GStep c3exec c3defs c3s2 c3s3 :=
    GStep.start _ 1 (by decide) (by decide)
  exact Relation.ReflTransGen.tail
    (Relation.ReflTransGen.tail
      (Relation.ReflTransGen.tail Relation.ReflTransGen.refl step1) step2) step3

/-- Witness for `graph_ctx_entries` in the state where `A` has failed and
`B` is about to start. -/
theorem graph_ctx_entries_witness :
    mkCtx (c3defs 1).depends_on c3s2.completed_tasks =
      Ctx.deps ((c3defs 1).depends_on.map fun d =>
        (d, (ctFind c3s2.completed_tasks d).getD Option.none)) ∧
    (((c3defs 1).depends_on.map fun d =>
        (d, (ctFind c3s2.completed_tasks d).getD Option.none)).map Prod.fst =
      (c3defs 1).depends_on) ∧
    (∀ d ∈ (c3defs 1).depends_on, ∃ j, (c3defs j).agent_id = d ∧
      ((c3s2.records j).status = TStatus.completed ∨
       (c3s2.records j).status = TStatus.failed) ∧
      (d, (c3s2.records j).result) ∈
        ((c3defs 1).depends_on.map fun d' =>
          (d', (ctFind c3s2.completed_tasks d').getD Option.none)) ∧
      ((c3s2.records j).status = TStatus.failed →
        (d, Option.none) ∈
          ((c3defs 1).depends_on.map fun d' =>
            (d', (ctFind c3s2.completed_tasks d').getD Option.none)))) := by
  have step1 : GStep c3exec c3defs (initG c3recs) c3s1 :=
    GStep.start _ 0 rfl (by decide)
  have step2 : GStep c3exec c3defs c3s1 c3s2 :=
    GStep.finish _ 0 Ctx.none (by decide)
  have hreach : GReach c3exec c3defs c3recs c3s2 :=
    Relation.ReflTransGen.tail
      (Relation.ReflTransGen.tail Relation.ReflTransGen.refl step1) step2
  have hinit : initOK c3recs := by
    intro i
    by_cases h : i = 0 <;> simp [c3recs, h]
  exact graph_ctx_entries 2 c3exec c3defs c3recs c3s2 1 (by decide) hinit hreach
    (by decide) (by decide)
